import Mathlib

/-!
# Verification of the padded Diffie-Hellman key computation

The repository ships one source file,
`src/Sources/CNIOBoringSSL/crypto/fipsmodule/dh/internal.h`, declaring the
internal entry point

  `int dh_compute_key_padded_no_self_test(unsigned char *out,
                                          const BIGNUM *peers_key, DH *dh);`

documented as doing the same as `DH_compute_key_padded` but without running
the FIPS self-test first.  The bodies of both functions live in source files
the repository does not include, so the computation is modelled here from the
specification's contract (§3, §4.1 and §7 of the spec): compute
`y_peer ^ x mod p`, encode it big-endian left-padded with zeroes to exactly
`byte_length p` bytes, and report `BufferTooSmall`, `InvalidPeerValue` or
`ArithmeticFailure` on the corresponding failure conditions.
-/

/-- A Diffie-Hellman group together with this party's key material, following
the spec's data model: prime modulus `p`, generator `g`, and the private
exponent `priv_key` (`x`).  The public value `g ^ x mod p` is derived. -/
structure DH where
  p : Nat
  g : Nat
  priv_key : Nat
deriving DecidableEq, Repr

/-- Error taxonomy of the spec (§7): insufficient output buffer, peer value
failing validation, or a failure of the underlying big-integer operation. -/
inductive DHError where
  | BufferTooSmall
  | InvalidPeerValue
  | ArithmeticFailure
deriving DecidableEq, Repr

/-- Number of base-256 digits of `n`, with explicit fuel bounding the
recursion depth (auxiliary to `byte_length`). -/
def byte_length_aux : Nat → Nat → Nat
  | 0, _ => 0
  | fuel + 1, n => if n = 0 then 0 else byte_length_aux fuel (n / 256) + 1

/-- `byte_length n` is the number of bytes in the minimal big-endian encoding
of `n` (the `BN_num_bytes` of the modulus): the number of base-256 digits,
equivalently `⌈bits(n) / 8⌉`, and `0` for `n = 0`. -/
def byte_length (n : Nat) : Nat :=
  byte_length_aux n n

/-- Fixed-width big-endian byte encoding: exactly `len` bytes, most
significant first, left-padded with zero bytes. -/
def toBytesBE (len : Nat) (n : Nat) : List Nat :=
  match len with
  | 0 => []
  | l + 1 => toBytesBE l (n / 256) ++ [n % 256]

/-- Big-endian byte decoding, inverse of `toBytesBE` on in-range values. -/
def fromBytesBE (bs : List Nat) : Nat :=
  bs.foldl (fun acc b => acc * 256 + b) 0

/-- Modelled from the spec: the body of `dh_compute_key_padded_no_self_test`
(missing from `src/`, which only holds its declaration), parameterised by the
external big-integer modular-exponentiation collaborator `mod_exp`, which may
fail (e.g. on allocation failure).  Per §4.1 and §7: fail with
`BufferTooSmall` when the output buffer cannot hold the full padded width,
fail with `InvalidPeerValue` on a degenerate peer value `0` or `1`, propagate
a failure of the big-integer operation as `ArithmeticFailure`, and otherwise
return the big-endian encoding of `y_peer ^ x mod p` left-padded with zeroes
to exactly `byte_length p` bytes. -/
def dh_compute_key_padded_core (mod_exp : Nat → Nat → Nat → Option Nat)
    (out_capacity : Nat) (peers_key : Nat) (dh : DH) :
    Except DHError (List Nat) :=
  if out_capacity < byte_length dh.p then
    .error .BufferTooSmall
  else if peers_key ≤ 1 then
    .error .InvalidPeerValue
  else
    match mod_exp peers_key dh.priv_key dh.p with
    | none => .error .ArithmeticFailure
    | some r => .ok (toBytesBE (byte_length dh.p) r)

/-- The exact big-integer collaborator: `base ^ exponent mod modulus`,
always succeeding. -/
def exact_mod_exp (base exponent modulus : Nat) : Option Nat :=
  some (base ^ exponent % modulus)

/-- Modelled from the spec: `dh_compute_key_padded_no_self_test` with the
exact big-integer collaborator — the self-test-free inner routine. -/
def dh_compute_key_padded_no_self_test
    (out_capacity : Nat) (peers_key : Nat) (dh : DH) :
    Except DHError (List Nat) :=
  dh_compute_key_padded_core exact_mod_exp out_capacity peers_key dh

/-- The process-wide FIPS self-test state (an external collaborator, §5):
whether the self-test has run and passed for this process. -/
structure SelfTestState where
  passed : Bool
deriving DecidableEq, Repr

/-- Modelled from the spec: the public entry point `DH_compute_key_padded`
(missing from `src/`) first ensures the FIPS self-test has run and passed for
the process, and then performs the identical computation; if the self-test
does not pass, the computation is not reached and a failure is reported. -/
def DH_compute_key_padded (st : SelfTestState)
    (out_capacity : Nat) (peers_key : Nat) (dh : DH) :
    Except DHError (List Nat) :=
  if st.passed then
    dh_compute_key_padded_no_self_test out_capacity peers_key dh
  else
    .error .ArithmeticFailure

/-- A call of the inner routine threaded through the process-wide state it
could in principle read or write: it returns the ambient state unchanged
together with the result, modelling that its only side effect is producing
the output bytes. -/
def dh_call (st : SelfTestState) (out_capacity : Nat) (peers_key : Nat)
    (dh : DH) : SelfTestState × Except DHError (List Nat) :=
  (st, dh_compute_key_padded_no_self_test out_capacity peers_key dh)

/-- The declared C interface of `internal.h` lines 28-29: the parameters are
the output pointer, the peer key and the DH object only — no buffer-length
parameter — so the routine behaves as if the buffer always has the full
padded width.  The result models the `int` return value (bytes written on
success, `-1` on failure) together with the bytes stored through `out`. -/
def dh_compute_key_padded_no_self_test_decl (peers_key : Nat) (dh : DH) :
    Int × List Nat :=
  match dh_compute_key_padded_no_self_test (byte_length dh.p) peers_key dh with
  | .ok bytes => ((byte_length dh.p : Int), bytes)
  | .error _ => (-1, [])

/-- A call through the declared interface made by a caller holding a buffer
of some actual capacity: the capacity is not among the declared parameters,
so it cannot influence the call. -/
def callWithBuffer (_capacity : Nat) (peers_key : Nat) (dh : DH) :
    Int × List Nat :=
  dh_compute_key_padded_no_self_test_decl peers_key dh

/-! ## Auxiliary lemmas about the byte encoding -/

theorem toBytesBE_length (len n : Nat) : (toBytesBE len n).length = len := by
  induction len generalizing n with
  | zero => rfl
  | succ l ih => simp [toBytesBE, ih]

theorem fromBytesBE_append_singleton (bs : List Nat) (b : Nat) :
    fromBytesBE (bs ++ [b]) = fromBytesBE bs * 256 + b := by
  simp [fromBytesBE]

theorem fromBytesBE_toBytesBE (len n : Nat) :
    fromBytesBE (toBytesBE len n) = n % 256 ^ len := by
  induction len generalizing n with
  | zero => simp [toBytesBE, fromBytesBE, Nat.mod_one]
  | succ l ih =>
    rw [toBytesBE, fromBytesBE_append_singleton, ih]
    have h : n % (256 * 256 ^ l) = n % 256 + 256 * (n / 256 % 256 ^ l) :=
      Nat.mod_mul
    have h2 : (256 : Nat) ^ (l + 1) = 256 * 256 ^ l := by ring
    rw [h2, h]
    ring

theorem fromBytesBE_toBytesBE_of_lt {len n : Nat} (h : n < 256 ^ len) :
    fromBytesBE (toBytesBE len n) = n := by
  rw [fromBytesBE_toBytesBE, Nat.mod_eq_of_lt h]

theorem lt_pow_byte_length_aux (fuel : Nat) :
    ∀ n : Nat, n ≤ fuel → n < 256 ^ byte_length_aux fuel n := by
  induction fuel with
  | zero =>
    intro n hn
    interval_cases n
    simp [byte_length_aux]
  | succ f ih =>
    intro n hn
    by_cases h0 : n = 0
    · simp [byte_length_aux, h0]
    · rw [byte_length_aux, if_neg h0]
      have hdiv : n / 256 ≤ f := by
        have : n / 256 < n := Nat.div_lt_self (Nat.pos_of_ne_zero h0) (by norm_num)
        omega
      have hih : n / 256 < 256 ^ byte_length_aux f (n / 256) := ih _ hdiv
      have hstep : n < 256 * (n / 256 + 1) := by
        have := Nat.div_add_mod n 256
        have := Nat.mod_lt n (show 0 < 256 by norm_num)
        omega
      calc n < 256 * (n / 256 + 1) := hstep
        _ ≤ 256 * 256 ^ byte_length_aux f (n / 256) :=
            Nat.mul_le_mul_left _ hih
        _ = 256 ^ (byte_length_aux f (n / 256) + 1) := by ring

theorem lt_pow_byte_length (n : Nat) : n < 256 ^ byte_length n :=
  lt_pow_byte_length_aux n n le_rfl

theorem byte_length_pos {n : Nat} (h : 0 < n) : 0 < byte_length n := by
  match n, h with
  | k + 1, _ =>
    simp [byte_length, byte_length_aux]

/-! ## The claims -/

/-- C1: for every output buffer, peer public value and DH key object,
`dh_compute_key_padded_no_self_test` produces exactly the same result as the
public `DH_compute_key_padded` entry point; the only behavioural difference
is that it does not run the FIPS self-test first (so the two agree whenever
the self-test passes). -/
theorem C1_no_self_test_refines_public (st : SelfTestState)
    (cap y : Nat) (dh : DH) (h : st.passed = true) :
    DH_compute_key_padded st cap y dh =
      dh_compute_key_padded_no_self_test cap y dh := by
  simp [DH_compute_key_padded, h]

theorem C1_witness :
    DH_compute_key_padded ⟨true⟩ 1 19 ⟨23, 5, 6⟩ =
      dh_compute_key_padded_no_self_test 1 19 ⟨23, 5, 6⟩ :=
  C1_no_self_test_refines_public ⟨true⟩ 1 19 ⟨23, 5, 6⟩ rfl

/-- C2: for every valid input (prime modulus, peer value in `[2, p-2]`,
buffer of the full padded width), a successful call yields the big-endian
encoding of `y ^ x mod p`, padded to `byte_length p` bytes; decoding the
output bytes recovers `y ^ x mod p`, so any known-answer test vector is
reproduced exactly. -/
theorem C2_functional_correctness (cap y : Nat) (dh : DH)
    (hp : Nat.Prime dh.p) (hlo : 2 ≤ y) (hhi : y ≤ dh.p - 2)
    (hcap : byte_length dh.p ≤ cap) :
    dh_compute_key_padded_no_self_test cap y dh =
      .ok (toBytesBE (byte_length dh.p) (y ^ dh.priv_key % dh.p)) ∧
    fromBytesBE (toBytesBE (byte_length dh.p) (y ^ dh.priv_key % dh.p)) =
      y ^ dh.priv_key % dh.p := by
  constructor
  · unfold dh_compute_key_padded_no_self_test dh_compute_key_padded_core
      exact_mod_exp
    rw [if_neg (by omega), if_neg (by omega)]
  · apply fromBytesBE_toBytesBE_of_lt
    have hp0 : 0 < dh.p := hp.pos
    exact lt_trans (Nat.mod_lt _ hp0) (lt_pow_byte_length dh.p)

theorem C2_witness :
    dh_compute_key_padded_no_self_test 1 19 ⟨23, 5, 6⟩ =
      .ok (toBytesBE (byte_length 23) (19 ^ 6 % 23)) ∧
    fromBytesBE (toBytesBE (byte_length 23) (19 ^ 6 % 23)) = 19 ^ 6 % 23 :=
  C2_functional_correctness 1 19 ⟨23, 5, 6⟩ (by decide) (by decide)
    (by decide) (by decide)

/-- C3: every successful call produces exactly `byte_length p` output bytes,
whatever the numeric magnitude of the result (left zero-padding included). -/
theorem C3_output_length (cap y : Nat) (dh : DH) (bytes : List Nat)
    (h : dh_compute_key_padded_no_self_test cap y dh = .ok bytes) :
    bytes.length = byte_length dh.p := by
  by_cases h1 : cap < byte_length dh.p
  · simp [dh_compute_key_padded_no_self_test, dh_compute_key_padded_core,
      h1] at h
  · by_cases h2 : y ≤ 1
    · simp [dh_compute_key_padded_no_self_test, dh_compute_key_padded_core,
        h1, h2] at h
    · simp [dh_compute_key_padded_no_self_test, dh_compute_key_padded_core,
        exact_mod_exp, h1, h2] at h
      rw [← h, toBytesBE_length]

theorem C3_witness : ([0, 1] : List Nat).length = byte_length 257 :=
  C3_output_length 2 2 ⟨257, 3, 16⟩ [0, 1] rfl

/-- C4: DH agreement symmetry — for valid parameters and private exponents,
party A computing from B's public value `g ^ x_b mod p` obtains the same
padded secret as party B computing from A's public value `g ^ x_a mod p`. -/
theorem C4_symmetry (cap p g x_a x_b : Nat)
    (ha : 2 ≤ g ^ x_a % p) (hb : 2 ≤ g ^ x_b % p) :
    dh_compute_key_padded_no_self_test cap (g ^ x_b % p) ⟨p, g, x_a⟩ =
      dh_compute_key_padded_no_self_test cap (g ^ x_a % p) ⟨p, g, x_b⟩ := by
  have key : (g ^ x_b % p) ^ x_a % p = (g ^ x_a % p) ^ x_b % p := by
    rw [← Nat.pow_mod, ← Nat.pow_mod, ← pow_mul, ← pow_mul, Nat.mul_comm]
  unfold dh_compute_key_padded_no_self_test dh_compute_key_padded_core
    exact_mod_exp
  by_cases hcap : cap < byte_length p
  · rw [if_pos hcap, if_pos hcap]
  · rw [if_neg hcap, if_neg hcap, if_neg (by omega), if_neg (by omega), key]

theorem C4_witness :
    dh_compute_key_padded_no_self_test 1 (5 ^ 15 % 23) ⟨23, 5, 6⟩ =
      dh_compute_key_padded_no_self_test 1 (5 ^ 6 % 23) ⟨23, 5, 15⟩ :=
  C4_symmetry 1 23 5 6 15 (by decide) (by decide)

/-- C5: a call with an output buffer one byte shorter than `byte_length p`
fails with `BufferTooSmall` (and, the model returning no bytes on failure,
writes nothing); more generally every capacity below the full padded width
fails the same way. -/
theorem C5_buffer_too_small (y : Nat) (dh : DH) (hp : 0 < dh.p) :
    dh_compute_key_padded_no_self_test (byte_length dh.p - 1) y dh =
      .error .BufferTooSmall ∧
    ∀ cap, cap < byte_length dh.p →
      dh_compute_key_padded_no_self_test cap y dh = .error .BufferTooSmall := by
  have hgen : ∀ cap, cap < byte_length dh.p →
      dh_compute_key_padded_no_self_test cap y dh = .error .BufferTooSmall := by
    intro cap hcap
    unfold dh_compute_key_padded_no_self_test dh_compute_key_padded_core
    rw [if_pos hcap]
  have hpos : 0 < byte_length dh.p := byte_length_pos hp
  exact ⟨hgen _ (by omega), hgen⟩

theorem C5_witness :
    dh_compute_key_padded_no_self_test (byte_length 23 - 1) 19 ⟨23, 5, 6⟩ =
      .error .BufferTooSmall :=
  (C5_buffer_too_small 19 ⟨23, 5, 6⟩ (by decide)).1

/-- C6: a call with peer public value `0` or `1` (the buffer being adequate)
fails with `InvalidPeerValue` instead of returning a degenerate secret. -/
theorem C6_invalid_peer (cap y : Nat) (dh : DH)
    (hcap : byte_length dh.p ≤ cap) (hy : y = 0 ∨ y = 1) :
    dh_compute_key_padded_no_self_test cap y dh =
      .error .InvalidPeerValue := by
  unfold dh_compute_key_padded_no_self_test dh_compute_key_padded_core
  rw [if_neg (by omega), if_pos (by omega)]

theorem C6_witness :
    dh_compute_key_padded_no_self_test 1 0 ⟨23, 5, 6⟩ =
      .error .InvalidPeerValue :=
  C6_invalid_peer 1 0 ⟨23, 5, 6⟩ (by decide) (Or.inl rfl)

/-- C7: if the underlying big-integer operation fails, the routine never
returns success (in particular never a truncated or all-zero secret), and on
an otherwise well-formed call it reports `ArithmeticFailure`; the failing
result carries no output bytes. -/
theorem C7_arithmetic_failure (mod_exp : Nat → Nat → Nat → Option Nat)
    (cap y : Nat) (dh : DH)
    (hfail : mod_exp y dh.priv_key dh.p = none) :
    (∀ bytes, dh_compute_key_padded_core mod_exp cap y dh ≠ .ok bytes) ∧
    (byte_length dh.p ≤ cap → 2 ≤ y →
      dh_compute_key_padded_core mod_exp cap y dh =
        .error .ArithmeticFailure) := by
  constructor
  · intro bytes hok
    unfold dh_compute_key_padded_core at hok
    by_cases h1 : cap < byte_length dh.p
    · rw [if_pos h1] at hok
      exact Except.noConfusion hok
    · rw [if_neg h1] at hok
      by_cases h2 : y ≤ 1
      · rw [if_pos h2] at hok
        exact Except.noConfusion hok
      · rw [if_neg h2, hfail] at hok
        exact Except.noConfusion hok
  · intro hcap hy
    unfold dh_compute_key_padded_core
    rw [if_neg (by omega), if_neg (by omega), hfail]

theorem C7_witness :
    dh_compute_key_padded_core (fun _ _ _ => none) 1 19 ⟨23, 5, 6⟩ =
      .error .ArithmeticFailure :=
  (C7_arithmetic_failure (fun _ _ _ => none) 1 19 ⟨23, 5, 6⟩ rfl).2
    (by decide) (by decide)

/-- C8: the routine is deterministic — threading it through the ambient
process-wide state, identical inputs yield identical results for any two
ambient states (no hidden randomness or hidden mutable state influences the
output), and the ambient state is returned unchanged (no side effect beyond
producing the output bytes). -/
theorem C8_deterministic (st₁ st₂ : SelfTestState) (cap y : Nat) (dh : DH) :
    (dh_call st₁ cap y dh).2 = (dh_call st₂ cap y dh).2 ∧
    (dh_call st₁ cap y dh).1 = st₁ :=
  ⟨rfl, rfl⟩

/-- C10: the declared C interface carries no buffer-length parameter, so a
call's outcome is identical for any two actual caller buffer capacities (the
routine cannot observe the capacity, and a buffer-too-small condition is not
detectable or reportable); on a well-formed call it reports and stores the
full `byte_length p` bytes regardless of any capacity. -/
theorem C10_no_length_parameter (c₁ c₂ y : Nat) (dh : DH) (hy : 2 ≤ y) :
    callWithBuffer c₁ y dh = callWithBuffer c₂ y dh ∧
    (dh_compute_key_padded_no_self_test_decl y dh).1 =
      (byte_length dh.p : Int) ∧
    ((dh_compute_key_padded_no_self_test_decl y dh).2).length =
      byte_length dh.p := by
  refine ⟨rfl, ?_⟩
  unfold dh_compute_key_padded_no_self_test_decl
    dh_compute_key_padded_no_self_test dh_compute_key_padded_core exact_mod_exp
  rw [if_neg (by omega), if_neg (by omega)]
  exact ⟨rfl, toBytesBE_length _ _⟩

theorem C10_witness :
    callWithBuffer 0 19 ⟨23, 5, 6⟩ = callWithBuffer 5 19 ⟨23, 5, 6⟩ ∧
    (dh_compute_key_padded_no_self_test_decl 19 ⟨23, 5, 6⟩).1 =
      (byte_length 23 : Int) ∧
    ((dh_compute_key_padded_no_self_test_decl 19 ⟨23, 5, 6⟩).2).length =
      byte_length 23 :=
  C10_no_length_parameter 0 5 19 ⟨23, 5, 6⟩ (by decide)
